import Mathlib

/-!
Shallow embedding of the QuizBot frontend quiz-protocol logic.

Message bodies are modelled as `List Char` (JavaScript strings acting on
BMP code units).  The definitions below translate, line for line:

* `parseQuizQuestion` / `scanStep` — the quiz-message parser of the
  `ChatMessage` component (detection regex, per-line scan with the
  hidden `[CORRECT:X]` marker, feedback phrases, footer lines and the
  three option forms);
* `handleOptionClick` / `clickOption` — the optimistic answer-click
  handler and its JSX guard;
* `buttonStatus`, `instantBadge`, `serverBadge`,
  `instantFeedbackLineShown`, `reconcileOverlay` — the render gating of
  the optimistic overlay and its reconciliation effect;
* `computeIsQuizActive` / `updateQuizActive` — the `ChatWindow` effect
  deriving the quiz-active flag from the latest message;
* `loadMessages` — the FEEDBACK-protocol filter applied when a chat's
  messages are loaded.
-/

/-- Whitespace class used by the JavaScript regexes (`\s`) and `trim`. -/
def isJsSpace (c : Char) : Bool :=
  c = ' ' || c = '\t' || c = '\n' || c = '\r' ||
  c = Char.ofNat 11 || c = Char.ofNat 12

/-- JavaScript `String.prototype.trim`. -/
def jsTrim (s : List Char) : List Char :=
  ((s.dropWhile isJsSpace).reverse.dropWhile isJsSpace).reverse

/-- JavaScript `content.split('\n')`. -/
def splitLines : List Char → List (List Char)
  | [] => [[]]
  | c :: rest =>
    if c = '\n' then [] :: splitLines rest
    else
      match splitLines rest with
      | [] => [[c]]
      | l :: ls => (c :: l) :: ls

/-- Boolean list-prefix test. -/
def isPrefixL : List Char → List Char → Bool
  | [], _ => true
  | _ :: _, [] => false
  | p :: ps, c :: cs => p = c && isPrefixL ps cs

/-- JavaScript `String.prototype.includes`: substring occurrence test. -/
def containsSub (pat : List Char) : List Char → Bool
  | [] => isPrefixL pat []
  | c :: rest => isPrefixL pat (c :: rest) || containsSub pat rest

/-- The option-letter class `[A-D]`. -/
def isQuizLetter (c : Char) : Bool :=
  c = 'A' || c = 'B' || c = 'C' || c = 'D'

/-- Does the marker pattern of the regex match starting at this position? -/
def markerAt : List Char → Option Char
  | '[' :: 'C' :: 'O' :: 'R' :: 'R' :: 'E' :: 'C' :: 'T' :: ':' :: c :: ']' :: _ =>
    if isQuizLetter c then some c else none
  | _ => none

/-- First match of the regex searching for a bracketed CORRECT marker
with a letter A-D, anywhere in the string (source line 51). -/
def matchMarker : List Char → Option Char
  | [] => none
  | c :: rest =>
    match markerAt (c :: rest) with
    | some l => some l
    | none => matchMarker rest

/-- Backtracking tail of a whitespace-run match followed by a dot-class
character: after at least one whitespace char has been consumed, the
rest must allow zero or more further whitespace chars followed by one
character that is not a newline. -/
def wsRestOk : List Char → Bool
  | [] => false
  | d :: rest => (d != '\n') || (isJsSpace d && wsRestOk rest)

/-- The sub-pattern whitespace-plus then dot-plus, matched at the start
of the string (whole-string search semantics: whitespace may include
newlines, the dot class may not). -/
def dotWsTail : List Char → Bool
  | [] => false
  | c :: rest => isJsSpace c && wsRestOk rest

/-- Does the detection pattern (letter A-D, dot, whitespace-plus,
dot-plus) match starting at this position? -/
def hasOptionsAt : List Char → Bool
  | c :: '.' :: rest => isQuizLetter c && dotWsTail rest
  | _ => false

/-- The detection test of source line 35: an unanchored search of the
letter-dot-whitespace pattern over the whole body. -/
def hasOptionsTest : List Char → Bool
  | [] => false
  | c :: rest => hasOptionsAt (c :: rest) || hasOptionsTest rest

/-- Greedy match of whitespace-plus followed by a captured dot-plus
reaching the end of the string; returns the capture (source option
regexes, the part after the dot). -/
def capOptText (rest : List Char) : Option (List Char) :=
  let k := (rest.takeWhile isJsSpace).length
  if k = 0 then none
  else
    let r := rest.drop k
    if !r.isEmpty then
      if r.contains '\n' then none else some r
    else
      match rest.drop (k - 1) with
      | [c] => if 2 ≤ k ∧ c ≠ '\n' then some [c] else none
      | _ => none

/-- Anchored match of the plain option form: captured letter A-D, a
dot, then whitespace and the captured text (source line 71). -/
def matchPlainOpt : List Char → Option (Char × List Char)
  | c :: d :: rest =>
    if isQuizLetter c && (d == '.') then (capOptText rest).map (fun t => (c, t)) else none
  | _ => none

/-- Anchored match of a marked option form: the marker character, then
optional whitespace, then the plain option form (source lines 69-70). -/
def matchMarkedOpt (mark : Char) : List Char → Option (Char × List Char)
  | [] => none
  | m :: rest =>
    if m = mark then matchPlainOpt (rest.dropWhile isJsSpace) else none

/-- Does the string start with the given character? -/
def startsWithChar (c : Char) : List Char → Bool
  | [] => false
  | d :: _ => d = c

/-- JavaScript `replace` of every double-star occurrence with nothing
(source line 60). -/
def removeStars : List Char → List Char
  | '*' :: '*' :: rest => removeStars rest
  | c :: rest => c :: removeStars rest
  | [] => []

/-- Per-option status as produced by the parser. -/
inductive OptStatus
  | correct
  | incorrect
  | normal
deriving DecidableEq

/-- One parsed quiz option: letter, text and status. -/
structure QOption where
  letter : List Char
  text : List Char
  status : OptStatus
deriving DecidableEq

/-- The structured quiz question returned by `parseQuizQuestion`. -/
structure QuizQuestion where
  question : List Char
  options : List QOption
  feedback : List Char
  isAnswered : Bool
  correctAnswerLetter : List Char
deriving DecidableEq

/-- Mutable scan state of the line loop in `parseQuizQuestion`. -/
structure ScanState where
  questionLines : List (List Char)
  options : List QOption
  feedback : List Char
  isAnswered : Bool
  correctAnswerLetter : List Char
  foundOptions : Bool
deriving DecidableEq

/-- The feedback phrase marking a correct answer. -/
def okPhrase : List Char := "✅ Correct".data

/-- The feedback phrase marking an incorrect answer. -/
def badPhrase : List Char := "❌ Incorrect".data

/-- First decorative footer phrase. -/
def footerA : List Char := "Type your answer".data

/-- Second decorative footer phrase (contains single quotes). -/
def footerB : List Char :=
  "or ".data ++ [Char.ofNat 39] ++ "stop".data ++ [Char.ofNat 39] ++ " to end".data

/-- The visible head of the hidden-answer marker. -/
def markerHead : List Char := "[CORRECT:".data

/-- One iteration of the line loop of `parseQuizQuestion`
(source lines 47-85). -/
def scanStep (st : ScanState) (line : List Char) : ScanState :=
  let t := jsTrim line
  match matchMarker t with
  | some c => { st with correctAnswerLetter := [c] }
  | none =>
    if containsSub okPhrase t || containsSub badPhrase t then
      { st with feedback := removeStars t, isAnswered := true }
    else if containsSub footerA t || containsSub footerB t then
      st
    else
      match (matchMarkedOpt '✅' t).orElse (fun _ => matchMarkedOpt '✅' line) with
      | some (c, tx) =>
        { st with foundOptions := true,
                  options := st.options ++ [⟨[c], jsTrim tx, OptStatus.correct⟩] }
      | none =>
        match (matchMarkedOpt '❌' t).orElse (fun _ => matchMarkedOpt '❌' line) with
        | some (c, tx) =>
          { st with foundOptions := true,
                    options := st.options ++ [⟨[c], jsTrim tx, OptStatus.incorrect⟩] }
        | none =>
          match matchPlainOpt t with
          | some (c, tx) =>
            if !(startsWithChar '✅' t) && !(startsWithChar '❌' t) then
              { st with foundOptions := true,
                        options := st.options ++ [⟨[c], jsTrim tx, OptStatus.normal⟩] }
            else if !st.foundOptions && !t.isEmpty then
              { st with questionLines := st.questionLines ++ [line] }
            else st
          | none =>
            if !st.foundOptions && !t.isEmpty then
              { st with questionLines := st.questionLines ++ [line] }
            else st

/-- The scan state before the line loop starts. -/
def initScan : ScanState := ⟨[], [], [], false, [], false⟩

/-- The whole line loop. -/
def scanLines (lines : List (List Char)) : ScanState :=
  lines.foldl scanStep initScan

/-- The parser of the `ChatMessage` component (source lines 33-104):
detection gate, line scan, and the exactly-four-options success
condition. -/
def parseQuizQuestion (isUser : Bool) (content : List Char) : Option QuizQuestion :=
  if !hasOptionsTest content || isUser then none
  else
    let st := scanLines (splitLines content)
    if st.options.length = 4 then
      some ⟨List.intercalate ['\n'] st.questionLines, st.options,
            st.feedback, st.isAnswered, st.correctAnswerLetter⟩
    else none

/-- The text fragments the component renders: the parsed question, the
option letters and texts and the feedback line when a quiz was parsed,
otherwise the raw body as ordinary chat text (source lines 147-236). -/
def renderedFragments (isUser : Bool) (content : List Char) : List (List Char) :=
  match parseQuizQuestion isUser content with
  | some q => [q.question] ++ q.options.map (fun o => o.letter ++ o.text) ++ [q.feedback]
  | none => [content]

/-- The optimistic instant-feedback record set by the click handler. -/
structure InstantFeedback where
  selectedLetter : List Char
  isCorrect : Bool
  correctLetter : List Char
deriving DecidableEq

/-- Component-local client state: the selected answer, the optimistic
overlay, and the letters forwarded to the server so far. -/
structure ClientState where
  selectedAnswer : Option (List Char)
  instantFeedback : Option InstantFeedback
  sentMessages : List (List Char)
deriving DecidableEq

/-- `handleOptionClick` (source lines 108-126): guarded by the
`onSendMessage` callback being present, no answer selected yet and a
non-empty hidden correct letter; sets the optimistic feedback, records
the selection and forwards the letter. -/
def handleOptionClick (hasOnSend : Bool) (st : ClientState)
    (letter correctAnswer : List Char) : ClientState :=
  if hasOnSend && st.selectedAnswer.isNone && !correctAnswer.isEmpty then
    { selectedAnswer := some letter,
      instantFeedback := some ⟨letter, letter == correctAnswer, correctAnswer⟩,
      sentMessages := st.sentMessages ++ [letter] }
  else st

/-- The click as wired in the JSX (source line 173): additionally
guarded by the question not being answered and no answer selected. -/
def clickOption (isAnswered hasOnSend : Bool) (st : ClientState)
    (letter correctAnswer : List Char) : ClientState :=
  if !isAnswered && st.selectedAnswer.isNone then
    handleOptionClick hasOnSend st letter correctAnswer
  else st

/-- A rendered feedback badge on an option button. -/
inductive Badge
  | correctBadge
  | wrongBadge
deriving DecidableEq

/-- Button status computation (source lines 151-164): the optimistic
overlay overrides the parsed status only while the question is not
answered. -/
def buttonStatus (opt : QOption) (ifb : Option InstantFeedback)
    (isAnswered : Bool) : OptStatus :=
  match ifb with
  | some f =>
    if !isAnswered then
      if opt.letter == f.selectedLetter then
        (if f.isCorrect then OptStatus.correct else OptStatus.incorrect)
      else if opt.letter == f.correctLetter then OptStatus.correct
      else opt.status
    else opt.status
  | none => opt.status

/-- Optimistic badge on an option (source lines 180-197). -/
def instantBadge (ifb : Option InstantFeedback) (isAnswered : Bool)
    (optLetter : List Char) : Option Badge :=
  match ifb with
  | some f =>
    if !isAnswered then
      if optLetter == f.selectedLetter then
        some (if f.isCorrect then Badge.correctBadge else Badge.wrongBadge)
      else if optLetter == f.correctLetter then some Badge.correctBadge
      else none
    else none
  | none => none

/-- Server-derived badge (source lines 200-210). -/
def serverBadge (status : OptStatus) (isAnswered : Bool) : Option Badge :=
  if isAnswered then
    match status with
    | OptStatus.correct => some Badge.correctBadge
    | OptStatus.incorrect => some Badge.wrongBadge
    | OptStatus.normal => none
  else none

/-- Visibility of the optimistic feedback line (source line 217). -/
def instantFeedbackLineShown (ifb : Option InstantFeedback)
    (isAnswered : Bool) : Bool :=
  ifb.isSome && !isAnswered

/-- The reconciliation effect (source lines 129-134): clear the
optimistic overlay exactly when the freshly parsed question reports
being answered. -/
def reconcileOverlay (st : ClientState) (q : Option QuizQuestion) : ClientState :=
  if (q.map (fun x => x.isAnswered)).getD false then
    { st with instantFeedback := none }
  else st

/-- Message roles of the chat data model. -/
inductive MessageRole
  | user
  | assistant
  | system
deriving DecidableEq

/-- Does the single-space quiz pattern of the `ChatWindow` effect match
at this position (letter A-D, dot, one space, a dot-class char)? -/
def hasQuizPatternAt : List Char → Bool
  | c :: '.' :: ' ' :: d :: _ => isQuizLetter c && (d != '\n')
  | _ => false

/-- The unanchored search of that pattern (ChatWindow source line 71). -/
def hasQuizPatternTest : List Char → Bool
  | [] => false
  | c :: rest => hasQuizPatternAt (c :: rest) || hasQuizPatternTest rest

/-- The quiz-termination marker substring. -/
def quizCompletePhrase : List Char := "Quiz Complete".data

/-- The quiz-question heuristic of ChatWindow (source lines 71-73). -/
def hasQuizQuestionHeur (content : List Char) : Bool :=
  hasQuizPatternTest content &&
  (containsSub "Assessment".data content || containsSub "Question".data content)

/-- The quiz-active flag update for the latest message (ChatWindow
source lines 64-85): only an assistant message changes the flag. -/
def computeIsQuizActive (role : MessageRole) (content : List Char)
    (prev : Bool) : Bool :=
  match role with
  | MessageRole.assistant =>
    hasQuizQuestionHeur content && !(containsSub quizCompletePhrase content)
  | _ => prev

/-- The same effect over the whole message list: an empty list clears
the flag, otherwise the latest message decides. -/
def updateQuizActive (messages : List (MessageRole × List Char))
    (prev : Bool) : Bool :=
  match messages.getLast? with
  | none => false
  | some (r, content) => computeIsQuizActive r content prev

/-- The FEEDBACK-protocol tag filtered out of loaded messages. -/
def feedbackTag : List Char := "FEEDBACK:".data

/-- `loadMessages` (page source lines 64-86): messages whose content
starts with the FEEDBACK tag are dropped before display. -/
def loadMessages (msgs : List (List Char)) : List (List Char) :=
  msgs.filter (fun m => !(isPrefixL feedbackTag m))

/-! ### Helper lemmas about the scan and the parser -/

theorem scanStep_marker (st : ScanState) (line : List Char) (c : Char)
    (h : matchMarker (jsTrim line) = some c) :
    scanStep st line = { st with correctAnswerLetter := [c] } := by
  simp only [scanStep, h]

theorem scanStep_feedback (st : ScanState) (line : List Char)
    (hm : matchMarker (jsTrim line) = none)
    (hf : (containsSub okPhrase (jsTrim line) || containsSub badPhrase (jsTrim line)) = true) :
    scanStep st line
      = { st with feedback := removeStars (jsTrim line), isAnswered := true } := by
  simp only [scanStep, hm, hf]
  simp

theorem scanStep_flags_of_noFeedback (st : ScanState) (line : List Char)
    (hf : (containsSub okPhrase (jsTrim line) || containsSub badPhrase (jsTrim line)) = false) :
    (scanStep st line).isAnswered = st.isAnswered ∧
    (scanStep st line).feedback = st.feedback := by
  simp only [scanStep]
  cases hm : matchMarker (jsTrim line) with
  | some c => simp
  | none =>
    simp only [hf]
    split
    · simp_all
    · split
      · simp
      · split
        · simp
        · split
          · simp
          · split
            · split
              · simp
              · split <;> simp
            · split <;> simp

theorem scanStep_correct_of_noMarker (st : ScanState) (line : List Char)
    (hm : matchMarker (jsTrim line) = none) :
    (scanStep st line).correctAnswerLetter = st.correctAnswerLetter := by
  simp only [scanStep, hm]
  split
  · simp
  · split
    · simp
    · split
      · simp
      · split
        · simp
        · split
          · split
            · simp
            · split <;> simp
          · split <;> simp

theorem scanFold_flags (lines : List (List Char)) (st : ScanState)
    (h : ∀ l ∈ lines,
      (containsSub okPhrase (jsTrim l) || containsSub badPhrase (jsTrim l)) = false) :
    (lines.foldl scanStep st).isAnswered = st.isAnswered ∧
    (lines.foldl scanStep st).feedback = st.feedback := by
  induction lines generalizing st with
  | nil => exact ⟨rfl, rfl⟩
  | cons l ls ih =>
    simp only [List.foldl_cons]
    have h1 := scanStep_flags_of_noFeedback st l (h l (by simp))
    have h2 := ih (scanStep st l) (fun x hx => h x (by simp [hx]))
    exact ⟨h2.1.trans h1.1, h2.2.trans h1.2⟩

theorem scanFold_correctLetter (lines : List (List Char)) (st : ScanState)
    (h : ∀ l ∈ lines, matchMarker (jsTrim l) = none) :
    (lines.foldl scanStep st).correctAnswerLetter = st.correctAnswerLetter := by
  induction lines generalizing st with
  | nil => rfl
  | cons l ls ih =>
    simp only [List.foldl_cons]
    have h1 := scanStep_correct_of_noMarker st l (h l (by simp))
    have h2 := ih (scanStep st l) (fun x hx => h x (by simp [hx]))
    exact h2.trans h1

theorem parse_some_elim {u : Bool} {c : List Char} {q : QuizQuestion}
    (h : parseQuizQuestion u c = some q) :
    hasOptionsTest c = true ∧ u = false ∧
    (scanLines (splitLines c)).options.length = 4 ∧
    q = ⟨List.intercalate ['\n'] (scanLines (splitLines c)).questionLines,
         (scanLines (splitLines c)).options,
         (scanLines (splitLines c)).feedback,
         (scanLines (splitLines c)).isAnswered,
         (scanLines (splitLines c)).correctAnswerLetter⟩ := by
  simp only [parseQuizQuestion] at h
  split at h
  · exact absurd h (by simp)
  · rename_i hg
    simp at hg
    split at h
    · rename_i h4
      injection h with hq
      exact ⟨hg.1, hg.2, h4, hq.symm⟩
    · exact absurd h (by simp)

theorem parse_none_of_not_four (u : Bool) (c : List Char)
    (h4 : (scanLines (splitLines c)).options.length ≠ 4) :
    parseQuizQuestion u c = none := by
  simp only [parseQuizQuestion]
  split
  · rfl
  · simp [h4]

theorem matchPlainOpt_not_marked {l : List Char} {c : Char} {tx : List Char}
    (h : matchPlainOpt l = some (c, tx)) :
    (!startsWithChar '✅' l && !startsWithChar '❌' l) = true := by
  cases l with
  | nil => simp [matchPlainOpt] at h
  | cons a rest =>
    cases rest with
    | nil => simp [matchPlainOpt] at h
    | cons b rest2 =>
      simp only [matchPlainOpt] at h
      by_cases ha : isQuizLetter a = true
      · simp only [isQuizLetter, Bool.or_eq_true, decide_eq_true_eq] at ha
        rcases ha with ((h' | h') | h') | h' <;> subst h' <;> rfl
      · rw [Bool.not_eq_true] at ha
        simp [ha] at h

theorem clickOption_empty_correct (isAns hs : Bool) (st : ClientState)
    (letter : List Char) :
    clickOption isAns hs st letter [] = st := by
  simp only [clickOption, handleOptionClick]
  split
  · split
    · simp_all
    · rfl
  · rfl

/-! ### Claim theorems -/

/-- C1: the parser returns a structured QuizQuestion only if exactly 4
option lines were collected during the line scan; any body yielding a
different option count returns no QuizQuestion and is rendered as
ordinary chat text. -/
theorem c1_exactly_four_options (u : Bool) (content : List Char) :
    (∀ q, parseQuizQuestion u content = some q → q.options.length = 4) ∧
    ((scanLines (splitLines content)).options.length ≠ 4 →
      parseQuizQuestion u content = none ∧
      renderedFragments u content = [content]) := by
  constructor
  · intro q hq
    obtain ⟨-, -, h4, hqe⟩ := parse_some_elim hq
    rw [hqe]
    exact h4
  · intro h4
    have hn := parse_none_of_not_four u content h4
    exact ⟨hn, by simp [renderedFragments, hn]⟩

/-- C1 witness: a body with no option lines yields no QuizQuestion and
is rendered as plain text. -/
theorem c1_witness :
    parseQuizQuestion false "Hello there".data = none ∧
    renderedFragments false "Hello there".data = ["Hello there".data] :=
  (c1_exactly_four_options false "Hello there".data).2 (by decide)

/-- A line matching the line-anchored option pattern, following the
claim's words (letter A-D at the start of the line, a dot, whitespace,
then at least one character). -/
def specAnchoredLine : List Char → Bool
  | c :: d :: rest => isQuizLetter c && (d == '.') && dotWsTail rest
  | _ => false

/-- Detection as the claim words it: some line of the body matches the
line-anchored pattern. -/
def specDetectAnchored (content : List Char) : Bool :=
  (splitLines content).any specAnchoredLine

/-- C2 counterexample: a body whose 4 option lines are indented is
parsed as a QuizQuestion by the code, yet none of its lines matches the
line-anchored pattern the claim describes — detection in the code is an
unanchored substring search, not a per-line anchored match. -/
theorem c2_counterexample :
    (parseQuizQuestion false "  A. aa\n  B. bb\n  C. cc\n  D. dd".data).isSome = true ∧
    specDetectAnchored "  A. aa\n  B. bb\n  C. cc\n  D. dd".data = false := by
  constructor
  · rfl
  · rfl

/-- C2 amended: detection is an unanchored substring search of the
letter-dot-whitespace pattern over the whole body (a match may start
mid-line and its whitespace may span a newline); a QuizQuestion is
returned only when that search succeeds, and a message with role user
never yields a QuizQuestion regardless of body content. -/
theorem c2_detection_amended :
    (∀ content, parseQuizQuestion true content = none) ∧
    (∀ content q, parseQuizQuestion false content = some q → hasOptionsTest content = true) ∧
    (∀ content, hasOptionsTest content = false → parseQuizQuestion false content = none) := by
  refine ⟨?_, ?_, ?_⟩
  · intro content
    simp [parseQuizQuestion]
  · intro content q h
    exact (parse_some_elim h).1
  · intro content h
    simp [parseQuizQuestion, h]

/-- C2 witness: a user-role message with a perfect quiz body is not
parsed, and a body failing the substring search is not parsed. -/
theorem c2_witness :
    parseQuizQuestion true "A. x\nB. y\nC. z\nD. w".data = none ∧
    parseQuizQuestion false "no options here".data = none :=
  ⟨c2_detection_amended.1 _, c2_detection_amended.2.2 _ (by decide)⟩

/-- C3 counterexample: a body carrying a CORRECT marker but only one
option line fails to parse, so the whole raw body — marker included —
is rendered as ordinary chat text; the rendered text therefore can
contain the hidden-marker substring. -/
theorem c3_counterexample :
    parseQuizQuestion false "[CORRECT:A]\nA. x".data = none ∧
    renderedFragments false "[CORRECT:A]\nA. x".data = ["[CORRECT:A]\nA. x".data] ∧
    containsSub markerHead "[CORRECT:A]\nA. x".data = true := by
  refine ⟨rfl, ?_, rfl⟩
  rfl

/-- C3 amended: a line whose trimmed form contains a CORRECT marker
with a letter A-D only sets the hidden correct-answer letter — it adds
nothing to the question text, the option list, the feedback or any
other scan field; but when the body fails to parse as a quiz, the raw
body (including any marker) is rendered as ordinary chat text, so the
non-leak guarantee holds only for successfully parsed quiz messages. -/
theorem c3_marker_handling_amended :
    (∀ (st : ScanState) (line : List Char) (c : Char),
      matchMarker (jsTrim line) = some c →
      scanStep st line = { st with correctAnswerLetter := [c] }) ∧
    (∀ (u : Bool) (content : List Char),
      parseQuizQuestion u content = none →
      renderedFragments u content = [content]) := by
  constructor
  · intro st line c h
    exact scanStep_marker st line c h
  · intro u content h
    simp [renderedFragments, h]

/-- C3 witness: scanning a marker line from the start state records the
letter and nothing else. -/
theorem c3_witness :
    scanStep initScan "[CORRECT:B]".data
      = { initScan with correctAnswerLetter := ['B'] } :=
  c3_marker_handling_amended.1 initScan "[CORRECT:B]".data 'B' (by decide)

/-- C4: on the first click for a displayed unanswered question the
client computes correctness locally as letter-equality with the parsed
hidden correct letter, records the selection so that every subsequent
click (and any sequence of clicks) is a no-op — at most one answer
letter is ever forwarded — and renders instant badges on the chosen
option and on the correct option. -/
theorem c4_first_click (st : ClientState) (letter correct : List Char)
    (hsel : st.selectedAnswer = none) (hc : correct ≠ []) :
    (clickOption false true st letter correct).selectedAnswer = some letter ∧
    (clickOption false true st letter correct).instantFeedback
      = some ⟨letter, letter == correct, correct⟩ ∧
    (clickOption false true st letter correct).sentMessages
      = st.sentMessages ++ [letter] ∧
    (∀ (a2 hs2 : Bool) (l2 c2 : List Char),
      clickOption a2 hs2 (clickOption false true st letter correct) l2 c2
        = clickOption false true st letter correct) ∧
    (∀ (a2 hs2 : Bool) (c2 : List Char) (ls : List (List Char)),
      ls.foldl (fun s l => clickOption a2 hs2 s l c2)
          (clickOption false true st letter correct)
        = clickOption false true st letter correct) ∧
    instantBadge (clickOption false true st letter correct).instantFeedback false letter
      = some (if letter == correct then Badge.correctBadge else Badge.wrongBadge) ∧
    (letter ≠ correct →
      instantBadge (clickOption false true st letter correct).instantFeedback false correct
        = some Badge.correctBadge) := by
  have hce : correct.isEmpty = false := by
    cases correct with
    | nil => exact absurd rfl hc
    | cons a l => rfl
  have hred : clickOption false true st letter correct
      = { selectedAnswer := some letter,
          instantFeedback := some ⟨letter, letter == correct, correct⟩,
          sentMessages := st.sentMessages ++ [letter] } := by
    simp [clickOption, handleOptionClick, hsel, hce]
  have hnoop : ∀ (a2 hs2 : Bool) (l2 c2 : List Char),
      clickOption a2 hs2 (clickOption false true st letter correct) l2 c2
        = clickOption false true st letter correct := by
    intro a2 hs2 l2 c2
    rw [hred]
    simp [clickOption]
  refine ⟨by rw [hred], by rw [hred], by rw [hred], hnoop, ?_, ?_, ?_⟩
  · intro a2 hs2 c2 ls
    induction ls with
    | nil => rfl
    | cons l ls ih =>
      simp only [List.foldl_cons]
      rw [hnoop a2 hs2 l c2]
      exact ih
  · rw [hred]
    simp [instantBadge]
  · intro hne
    rw [hred]
    have h1 : (correct == letter) = false := by
      simp [beq_eq_false_iff_ne]
      exact fun he => hne he.symm
    simp [instantBadge, h1]

/-- C4 witness: clicking B on a fresh state with hidden letter B
records the selection and forwards exactly that letter. -/
theorem c4_witness :
    (clickOption false true ⟨none, none, []⟩ ['B'] ['B']).selectedAnswer = some ['B'] ∧
    (clickOption false true ⟨none, none, []⟩ ['B'] ['B']).sentMessages = [['B']] :=
  ⟨(c4_first_click ⟨none, none, []⟩ ['B'] ['B'] rfl (by decide)).1,
   (c4_first_click ⟨none, none, []⟩ ['B'] ['B'] rfl (by decide)).2.2.1⟩

/-- C5: the optimistic overlay is cleared exactly when the freshly
parsed question reports being answered (and kept otherwise); while the
question is answered no optimistic badge or optimistic feedback line is
rendered and the button status is the server-derived one. -/
theorem c5_reconcile (st : ClientState) (q : QuizQuestion)
    (f : Option InstantFeedback) (opt : QOption) (letter : List Char) :
    (q.isAnswered = true → (reconcileOverlay st (some q)).instantFeedback = none) ∧
    (q.isAnswered = false → reconcileOverlay st (some q) = st) ∧
    (reconcileOverlay st none = st) ∧
    (instantBadge f true letter = none) ∧
    (instantFeedbackLineShown f true = false) ∧
    (buttonStatus opt f true = opt.status) ∧
    (serverBadge (buttonStatus opt f true) true = serverBadge opt.status true) := by
  refine ⟨?_, ?_, ?_, ?_, ?_, ?_, ?_⟩
  · intro h
    simp [reconcileOverlay, h]
  · intro h
    simp [reconcileOverlay, h]
  · simp [reconcileOverlay]
  · cases f <;> simp [instantBadge]
  · cases f <;> simp [instantFeedbackLineShown]
  · cases f <;> simp [buttonStatus]
  · cases f <;> simp [buttonStatus]

/-- C5 witness: an answered reload clears a live optimistic overlay. -/
theorem c5_witness :
    (reconcileOverlay ⟨some ['A'], some ⟨['A'], true, ['A']⟩, [['A']]⟩
        (some ⟨[], [], [], true, ['A']⟩)).instantFeedback = none :=
  (c5_reconcile ⟨some ['A'], some ⟨['A'], true, ['A']⟩, [['A']]⟩
    ⟨[], [], [], true, ['A']⟩ none ⟨['A'], [], OptStatus.normal⟩ ['A']).1 rfl

/-- C6: a scanned line that is not a marker, feedback or footer line is
matched against the three option forms in priority order —
marked-correct, marked-incorrect, then plain — and the matched option
is appended with status correct, incorrect or normal respectively, with
the letter and the trimmed text extracted from the line. -/
theorem c6_option_priority (st : ScanState) (line : List Char)
    (hm : matchMarker (jsTrim line) = none)
    (hf : (containsSub okPhrase (jsTrim line) || containsSub badPhrase (jsTrim line)) = false)
    (hft : (containsSub footerA (jsTrim line) || containsSub footerB (jsTrim line)) = false) :
    (∀ c tx,
      ((matchMarkedOpt '✅' (jsTrim line)).orElse (fun _ => matchMarkedOpt '✅' line)) = some (c, tx) →
      scanStep st line
        = { st with foundOptions := true,
                    options := st.options ++ [⟨[c], jsTrim tx, OptStatus.correct⟩] }) ∧
    (((matchMarkedOpt '✅' (jsTrim line)).orElse (fun _ => matchMarkedOpt '✅' line)) = none →
      ∀ c tx,
      ((matchMarkedOpt '❌' (jsTrim line)).orElse (fun _ => matchMarkedOpt '❌' line)) = some (c, tx) →
      scanStep st line
        = { st with foundOptions := true,
                    options := st.options ++ [⟨[c], jsTrim tx, OptStatus.incorrect⟩] }) ∧
    (((matchMarkedOpt '✅' (jsTrim line)).orElse (fun _ => matchMarkedOpt '✅' line)) = none →
      ((matchMarkedOpt '❌' (jsTrim line)).orElse (fun _ => matchMarkedOpt '❌' line)) = none →
      ∀ c tx, matchPlainOpt (jsTrim line) = some (c, tx) →
      scanStep st line
        = { st with foundOptions := true,
                    options := st.options ++ [⟨[c], jsTrim tx, OptStatus.normal⟩] }) := by
  refine ⟨?_, ?_, ?_⟩
  · intro c tx hcm
    simp [scanStep, hm, hf, hft, hcm]
  · intro hcm c tx him
    simp [scanStep, hm, hf, hft, hcm, him]
  · intro hcm him c tx hnm
    have hg := matchPlainOpt_not_marked hnm
    simp [scanStep, hm, hf, hft, hcm, him, hnm, hg]

/-- C6 witness: a marked-correct line is recorded as a correct option
with its letter and text. -/
theorem c6_witness :
    scanStep initScan "✅ A. yes".data
      = { initScan with foundOptions := true,
                        options := [⟨['A'], "yes".data, OptStatus.correct⟩] } :=
  (c6_option_priority initScan "✅ A. yes".data (by decide) (by decide) (by decide)).1
    'A' "yes".data (by decide)

/-- C7 counterexample: the feedback field is not set to the feedback
line itself — the code stores the trimmed line with every double-star
pair removed, so for a bold feedback line the stored field differs from
the line. -/
theorem c7_counterexample :
    (parseQuizQuestion false "Q?\nA. a\nB. b\nC. c\nD. d\n**✅ Correct!**".data).map
        (fun q => q.feedback) = some "✅ Correct!".data ∧
    (parseQuizQuestion false "Q?\nA. a\nB. b\nC. c\nD. d\n**✅ Correct!**".data).map
        (fun q => q.feedback) ≠ some "**✅ Correct!**".data ∧
    ((splitLines "Q?\nA. a\nB. b\nC. c\nD. d\n**✅ Correct!**".data).any
        (fun l => containsSub okPhrase (jsTrim l) || containsSub badPhrase (jsTrim l))) = true := by
  refine ⟨rfl, ?_, rfl⟩
  decide

/-- C7 amended: a line whose trimmed form contains a feedback phrase
(and no CORRECT marker) sets isAnswered and sets feedback to the
trimmed line with all double-star pairs removed, contributing nothing
to question text or options; a body none of whose lines contains a
feedback phrase parses with isAnswered false and empty feedback. -/
theorem c7_feedback_amended :
    (∀ (st : ScanState) (line : List Char),
      matchMarker (jsTrim line) = none →
      (containsSub okPhrase (jsTrim line) || containsSub badPhrase (jsTrim line)) = true →
      scanStep st line
        = { st with feedback := removeStars (jsTrim line), isAnswered := true }) ∧
    (∀ (u : Bool) (content : List Char) (q : QuizQuestion),
      parseQuizQuestion u content = some q →
      (∀ l ∈ splitLines content,
        (containsSub okPhrase (jsTrim l) || containsSub badPhrase (jsTrim l)) = false) →
      q.isAnswered = false ∧ q.feedback = []) := by
  constructor
  · exact scanStep_feedback
  · intro u content q hq hl
    obtain ⟨-, -, -, hqe⟩ := parse_some_elim hq
    have hflags := scanFold_flags (splitLines content) initScan hl
    rw [hqe]
    exact ⟨hflags.1, hflags.2⟩

/-- C7 witness: scanning a plain feedback line sets the feedback field
and the answered flag from the start state. -/
theorem c7_witness :
    scanStep initScan "✅ Correct!".data
      = { initScan with feedback := "✅ Correct!".data, isAnswered := true } :=
  c7_feedback_amended.1 initScan "✅ Correct!".data (by decide) (by decide)

/-- C8: for an assistant latest message, the Quiz Complete substring
forces the quiz-active flag to false regardless of the rest of the
content, and the scenario body parses to no QuizQuestion and yields an
inactive quiz. -/
theorem c8_quiz_complete :
    (∀ (content : List Char) (prev : Bool),
      containsSub quizCompletePhrase content = true →
      computeIsQuizActive MessageRole.assistant content prev = false) ∧
    parseQuizQuestion false "Quiz Complete! You scored 4/5.".data = none ∧
    (∀ prev, computeIsQuizActive MessageRole.assistant
        "Quiz Complete! You scored 4/5.".data prev = false) ∧
    (∀ (prevMsgs : List (MessageRole × List Char)) (prev : Bool),
      updateQuizActive
          (prevMsgs ++ [(MessageRole.assistant, "Quiz Complete! You scored 4/5.".data)]) prev
        = false) := by
  refine ⟨?_, by rfl, ?_, ?_⟩
  · intro content prev h
    simp [computeIsQuizActive, h]
  · intro prev
    rfl
  · intro prevMsgs prev
    have hlast : (prevMsgs ++ [(MessageRole.assistant,
        "Quiz Complete! You scored 4/5.".data)]).getLast?
        = some (MessageRole.assistant, "Quiz Complete! You scored 4/5.".data) := by
      simp
    simp only [updateQuizActive, hlast]
    rfl

/-- C8 witness: an assistant message that is just the termination
marker yields an inactive quiz even if the flag was set. -/
theorem c8_witness :
    computeIsQuizActive MessageRole.assistant quizCompletePhrase true = false :=
  c8_quiz_complete.1 quizCompletePhrase true (by decide)

/-- C9: a body that parses as a QuizQuestion but has no CORRECT-marker
line yields an empty hidden correct letter, and clicking any option in
any client state is then a no-op: nothing selected, no optimistic
feedback, nothing forwarded. -/
theorem c9_no_marker_click_noop (content : List Char) (q : QuizQuestion)
    (st : ClientState) (letter : List Char) (isAns hs : Bool)
    (hq : parseQuizQuestion false content = some q)
    (hm : ∀ l ∈ splitLines content, matchMarker (jsTrim l) = none) :
    q.correctAnswerLetter = [] ∧
    clickOption isAns hs st letter q.correctAnswerLetter = st := by
  obtain ⟨-, -, -, hqe⟩ := parse_some_elim hq
  have hcl : q.correctAnswerLetter = [] := by
    rw [hqe]
    exact scanFold_correctLetter (splitLines content) initScan hm
  exact ⟨hcl, by rw [hcl]; exact clickOption_empty_correct isAns hs st letter⟩

/-- Concrete parsed question used by the C9 witness. -/
def c9Question : QuizQuestion :=
  ⟨[], [⟨['A'], ['a'], OptStatus.normal⟩, ⟨['B'], ['b'], OptStatus.normal⟩,
        ⟨['C'], ['c'], OptStatus.normal⟩, ⟨['D'], ['d'], OptStatus.normal⟩],
   [], false, []⟩

/-- C9 witness: a four-option body without a marker parses with an
empty hidden letter and a click leaves the fresh client state as is. -/
theorem c9_witness :
    c9Question.correctAnswerLetter = [] ∧
    clickOption false true ⟨none, none, []⟩ ['A'] c9Question.correctAnswerLetter
      = ⟨none, none, []⟩ :=
  c9_no_marker_click_noop "A. a\nB. b\nC. c\nD. d".data c9Question ⟨none, none, []⟩
    ['A'] false true (by decide) (by decide)

/-- C10: the loaded message list never contains a FEEDBACK-tagged
message, is an order-preserving sublist of the raw list, and keeps
every message that does not start with the tag. -/
theorem c10_feedback_filter (msgs : List (List Char)) :
    (∀ m ∈ loadMessages msgs, isPrefixL feedbackTag m = false) ∧
    List.Sublist (loadMessages msgs) msgs ∧
    (∀ m ∈ msgs, isPrefixL feedbackTag m = false → m ∈ loadMessages msgs) := by
  refine ⟨?_, List.filter_sublist _, ?_⟩
  · intro m hm
    have := List.of_mem_filter hm
    simpa using this
  · intro m hm hp
    exact List.mem_filter.2 ⟨hm, by simp [hp]⟩

/-- C10 witness: a plain message survives the filter next to a
FEEDBACK-tagged one. -/
theorem c10_witness :
    "hi".data ∈ loadMessages ["FEEDBACK:x".data, "hi".data] :=
  (c10_feedback_filter ["FEEDBACK:x".data, "hi".data]).2.2 "hi".data (by decide) (by decide)
